import Mathlib

/-!
Verification development for the dpt configuration engine
(source: src/dpt/schema.py of the dpt repository).

The development shallowly embeds:

* the plain data tree intermediate representation that all decoded
  configuration sources share;
* the value merge engine, which the source realises through
  pydantic.utils.deep_update and which BaseSettings.__init__ uses to
  combine the parsed config file tree with the environment and keyword
  trees;
* the image / repository / tag reconciliation validator
  Target.consistent_image, including its write back of parsed parts
  into sibling fields;
* the extension dispatch of BaseSettings.__init__ together with the
  diagnostic printed by BaseSettings.from_file on failure;
* the required field declarations of the Dockerfile entity and the
  ReadmeExt enumeration.

Mappings are embedded as association lists over string keys; a list
produced from a Python dict has pairwise distinct keys, which appears
as a Nodup hypothesis where a proof needs it.
-/

namespace Dpt

/-- Plain data tree: the universal intermediate representation of a
decoded configuration source.  A value is null, a boolean, a number,
a string, a sequence, or a mapping from string keys to subtrees.
Mappings are association lists; Python dict semantics (distinct keys)
enter proofs as explicit Nodup hypotheses. -/
inductive PTree where
  | null : PTree
  | bool : Bool → PTree
  | num : Int → PTree
  | str : String → PTree
  | seq : List PTree → PTree
  | map : List (String × PTree) → PTree

/-- A mapping level of a plain data tree. -/
abbrev PMap := List (String × PTree)

/-- Whether a plain data tree value is map shaped.  Mirrors the
isinstance dict test of pydantic deep_update. -/
def PTree.isMap : PTree → Bool
  | PTree.map _ => true
  | _ => false

/-- First binding of a key in a mapping, mirroring a Python dict read. -/
def lookup : PMap → String → Option PTree
  | [], _ => none
  | (k', v) :: rest, k => if k = k' then some v else lookup rest k

/-- Write a binding, mirroring a Python dict write: the first binding
of the key is replaced in place, a fresh key is appended at the end. -/
def setKey : PMap → String → PTree → PMap
  | [], k, v => [(k, v)]
  | (k', v') :: rest, k, v =>
      if k = k' then (k', v) :: rest else (k', v') :: setKey rest k v

mutual

/-- One iteration of the loop body of pydantic deep_update: binding
key k to override value v on top of base.  When both the present base
value and v are map shaped the two maps are merged recursively,
otherwise v replaces the base value. -/
def updateEntry (base : PMap) (k : String) (v : PTree) : PMap :=
  match lookup base k, v with
  | some (PTree.map bsub), PTree.map osub =>
      setKey base k (PTree.map (deep_update bsub osub))
  | _, _ => setKey base k v
termination_by sizeOf v

/-- Embedding of pydantic.utils.deep_update restricted to two
arguments, exactly as BaseSettings.__init__ calls it: every binding of
the override mapping is folded onto the base mapping in order. -/
def deep_update (base : PMap) (override : PMap) : PMap :=
  match override with
  | [] => base
  | (k, v) :: rest => deep_update (updateEntry base k v) rest
termination_by sizeOf override

end

/-- The value the merge gives a key bound in the override: a recursive
merge when both sides carry maps, the override value otherwise. -/
def mergeVal (bv : Option PTree) (ov : PTree) : PTree :=
  match bv, ov with
  | some (PTree.map bm), PTree.map om => PTree.map (deep_update bm om)
  | _, ov => ov

/-- Python truthiness of an optional string: None and the empty string
are falsy, every other string is truthy.  The guards of
Target.consistent_image test repository, tag and image this way. -/
def truthy : Option String → Bool
  | none => false
  | some s => !(s == "")

/-- Splitting a list of characters at every colon, keeping empty
groups.  Helper for splitOnColon. -/
def splitColonAux : List Char → List (List Char)
  | [] => [[]]
  | c :: rest =>
      match splitColonAux rest with
      | g :: gs => if c = ':' then [] :: g :: gs else (c :: g) :: gs
      | [] => [[]]

/-- Embedding of the Python expression v.split applied to a colon: the
string is cut at every colon and empty pieces are kept, so a string
with exactly one colon yields exactly two pieces. -/
def splitOnColon (s : String) : List String :=
  (splitColonAux s.toList).map String.mk

/-- The three fields of a Target that consistent_image reads and
writes.  The remaining Target fields play no role in the validator. -/
structure TargetFields where
  repository : Option String
  tag : Option String
  image : Option String
deriving DecidableEq, Repr

/-- Outcome of running the consistent_image validator on a Target.
The two failing constructors keep the distinct failure modes of the
source apart: imageConsistencyError is the assert statement firing
when an explicitly given repository or tag disagrees with the parsed
image, while validationError is the failure of the unpacking
assignment itself (a missing image value reaching split, or a split
that does not yield exactly two pieces). -/
inductive TargetResult where
  | ok : TargetFields → TargetResult
  | imageConsistencyError : TargetResult
  | validationError : TargetResult
deriving DecidableEq, Repr

/-- Embedding of Target.consistent_image (src/dpt/schema.py, lines 195
to 217) together with its effect on the constructed entity.  The
validator receives the image value v and the previously validated
sibling values repository and tag; an absent image reaches it as None.
When v is falsy: with both siblings truthy the derived composite
string is returned as the image, with both siblings falsy the fixed
fallback is returned.  Every other case falls through to the
unpacking of v split at the colon; an explicitly given sibling must
equal its parsed part (assert), a falsy sibling is overwritten in the
values mapping by the parsed part, and the final entity carries the
mutated values mapping together with the returned image. -/
def consistent_image (repository tag : Option String) (v : Option String) : TargetResult :=
  if truthy v = false ∧ truthy repository = true ∧ truthy tag = true then
    TargetResult.ok
      ⟨repository, tag, some (repository.getD "" ++ ":" ++ tag.getD "")⟩
  else if truthy v = false ∧ truthy repository = false ∧ truthy tag = false then
    TargetResult.ok ⟨repository, tag, some "python:3.9-alpine"⟩
  else
    match v with
    | none => TargetResult.validationError
    | some s =>
      match splitOnColon s with
      | [imgRepo, imgTag] =>
        if truthy repository then
          if repository = some imgRepo then
            if truthy tag then
              if tag = some imgTag then TargetResult.ok ⟨repository, tag, some s⟩
              else TargetResult.imageConsistencyError
            else TargetResult.ok ⟨repository, some imgTag, some s⟩
          else TargetResult.imageConsistencyError
        else
          if truthy tag then
            if tag = some imgTag then TargetResult.ok ⟨some imgRepo, tag, some s⟩
            else TargetResult.imageConsistencyError
          else TargetResult.ok ⟨some imgRepo, some imgTag, some s⟩
      | _ => TargetResult.validationError

/-- Embedding of pydantic BaseSettings private build values step as
the source relies on it: the keyword tree is deep merged on top of the
environment derived tree. -/
def build_values (envTree kwargs : PMap) : PMap := deep_update envTree kwargs

/-- Layered resolution of BaseSettings.__init__ (src/dpt/schema.py,
lines 86 to 105): the decoded config file tree is the base, the
environment tree and then the call time keyword tree are merged on
top via deep_update, and the class defaults sit below everything,
filling only what the merged tree leaves unset (pydantic applies a
field default exactly when the merged tree carries no value for the
field). -/
def resolveSettings (defaults configTree envTree kwargs : PMap) : PMap :=
  deep_update defaults (deep_update configTree (build_values envTree kwargs))

/-- The four file suffixes the extension dispatch table of
BaseSettings.__init__ recognises. -/
def allowedSuffixes : List String := [".json", ".toml", ".yml", ".yaml"]

/-- Configuration file formats reachable through the dispatch table. -/
inductive ConfigFormat where
  | json : ConfigFormat
  | toml : ConfigFormat
  | yaml : ConfigFormat
deriving DecidableEq, Repr

/-- Embedding of the extension dispatch mapping of
BaseSettings.__init__ (src/dpt/schema.py, lines 88 to 93): a dict read
keyed by the path suffix, yielding the matching format parser and
raising KeyError on every other suffix (modelled as none). -/
def formatFor (suffix : String) : Option ConfigFormat :=
  if suffix = ".json" then some ConfigFormat.json
  else if suffix = ".toml" then some ConfigFormat.toml
  else if suffix = ".yml" then some ConfigFormat.yaml
  else if suffix = ".yaml" then some ConfigFormat.yaml
  else none

/-- Outcome of BaseSettings.from_file for the extension dispatch step:
either a parser is selected and decoding proceeds, or the KeyError
escapes __init__, from_file catches it, prints a diagnostic and exits
with status one. -/
inductive LoadOutcome where
  | decoded : ConfigFormat → LoadOutcome
  | fatalExit : Nat → String → LoadOutcome
deriving DecidableEq, Repr

/-- Embedding of the extension dispatch step of BaseSettings.from_file
(src/dpt/schema.py, lines 35 to 40 with lines 86 to 93): an
unrecognised suffix raises KeyError carrying the suffix, and from_file
prints the diagnostic built from the resolved path and the error, then
exits with status one.  The Python runtime renders the KeyError
payload inside quotation marks; that repr level decoration is elided
here and the payload, the suffix itself, is embedded directly. -/
def from_file_dispatch (path suffix : String) : LoadOutcome :=
  match formatFor suffix with
  | some fmt => LoadOutcome.decoded fmt
  | none =>
      LoadOutcome.fatalExit 1
        ("Incorrectly formatted " ++ path ++ " (" ++ suffix ++ ")")

/-- Whether the pattern list of characters occurs at the head of the
text list of characters. -/
def charsLeading : List Char → List Char → Bool
  | [], _ => true
  | _ :: _, [] => false
  | p :: ps, c :: cs => p == c && charsLeading ps cs

/-- Whether the pattern list of characters occurs anywhere in the text
list of characters. -/
def charsOccur : List Char → List Char → Bool
  | pat, [] => pat.isEmpty
  | pat, c :: cs => charsLeading pat (c :: cs) || charsOccur pat cs

/-- Whether the pattern string occurs as a contiguous substring of the
text string. -/
def containsSubstr (text pat : String) : Bool := charsOccur pat.toList text.toList

/-- One field declaration of the Dockerfile entity: its name and
whether the declaration marks it required, Field with an ellipsis
default, as opposed to carrying a usable default value. -/
structure FieldSpec where
  name : String
  required : Bool
deriving DecidableEq, Repr

/-- The field declarations of the Dockerfile entity (src/dpt/schema.py,
lines 239 to 278) in declaration order.  package, dev and prod are
declared with an ellipsis default and are therefore required; every
other field carries a default. -/
def dockerfileFields : List FieldSpec :=
  [⟨"package", true⟩,
   ⟨"readme_ext", false⟩,
   ⟨"scripts_path", false⟩,
   ⟨"args", false⟩,
   ⟨"dev", true⟩,
   ⟨"prod", true⟩,
   ⟨"request", false⟩,
   ⟨"spacing", false⟩]

/-- The required fields a merged configuration tree fails to supply:
pydantic reports a missing field error for each required field the
tree carries no value for. -/
def missingRequired (tree : PMap) : List String :=
  (dockerfileFields.filter fun f => f.required && (lookup tree f.name).isNone).map
    FieldSpec.name

/-- Outcome of the required field check pydantic runs while
constructing a Dockerfile from a merged tree: either every required
field is supplied, or construction fails with an aggregated validation
error naming each missing field. -/
inductive BuildOutcome where
  | built : BuildOutcome
  | validationFailure : List String → BuildOutcome
deriving DecidableEq, Repr

/-- The required field layer of Dockerfile construction. -/
def requiredCheck (tree : PMap) : BuildOutcome :=
  if missingRequired tree = [] then BuildOutcome.built
  else BuildOutcome.validationFailure (missingRequired tree)

/-- Embedding of the ReadmeExt enumeration (src/dpt/schema.py, lines
107 to 110): the two member names of the source enumeration. -/
inductive ReadmeExt where
  | RST : ReadmeExt
  | MD : ReadmeExt
deriving DecidableEq, Repr

/-- The literal value each ReadmeExt member carries in the source:
both RST and MD are assigned the same string, so in Python enum
semantics MD is an alias of RST. -/
def ReadmeExt.value : ReadmeExt → String
  | ReadmeExt.RST => ".rst"
  | ReadmeExt.MD => ".rst"

/-- The declared default of the readme_ext field of Dockerfile
(src/dpt/schema.py, lines 246 to 249). -/
def readmeExtDefault : ReadmeExt := ReadmeExt.RST

/-- One entry of the single aggregated ValidationError pydantic
raises for a model: the location path of the failing field and the
error kind.  Embeds the pydantic v1 error collection that schema.py
relies on: every failing field of one construction contributes one
entry, the entries are gathered into one flat list, and the list is
raised as one ValidationError; nothing is raised on its own. -/
structure ErrorEntry where
  loc : List String
  kind : String
deriving DecidableEq, Repr

/-- The value of a string field of a mapping level, as the validator
of a sub model receives it: an absent binding reaches the validator
as None. -/
def strField (m : PMap) (k : String) : Option String :=
  match lookup m k with
  | some (PTree.str s) => some s
  | _ => none

/-- The mapping bound to a key, when the bound value is map shaped. -/
def subMap (tree : PMap) (k : String) : Option PMap :=
  match lookup tree k with
  | some (PTree.map m) => some m
  | _ => none

/-- Relocation of the entries of a sub model under the field name of
the sub model, as pydantic v1 does when it flattens the failure of a
nested model into the aggregated error of the parent model. -/
def nestErrors (field : String) (es : List ErrorEntry) : List ErrorEntry :=
  es.map fun e => ⟨field :: e.loc, e.kind⟩

/-- The error entries the image validator contributes for one Target
sub model.  Pydantic v1 catches AssertionError and ValueError raised
inside a validator and wraps each as one entry of the aggregated
ValidationError of the model under construction: the assert of
consistent_image firing becomes an assertion error entry at the image
field, a failing unpacking assignment a value error entry.  Success
contributes nothing. -/
def targetErrors (m : PMap) : List ErrorEntry :=
  match consistent_image (strField m "repository") (strField m "tag")
      (strField m "image") with
  | TargetResult.ok _ => []
  | TargetResult.imageConsistencyError => [⟨["image"], "assertion_error"⟩]
  | TargetResult.validationError => [⟨["image"], "value_error"⟩]

/-- The missing required field entries of a Dockerfile construction,
one value error missing entry per required field the merged tree
leaves unset. -/
def missingEntries (tree : PMap) : List ErrorEntry :=
  (missingRequired tree).map fun f => ⟨[f], "value_error.missing"⟩

/-- The entries the dev sub model contributes, relocated under dev. -/
def devEntries (tree : PMap) : List ErrorEntry :=
  match subMap tree "dev" with
  | some m => nestErrors "dev" (targetErrors m)
  | none => []

/-- The entries the prod sub model contributes, relocated under
prod. -/
def prodEntries (tree : PMap) : List ErrorEntry :=
  match subMap tree "prod" with
  | some m => nestErrors "prod" (targetErrors m)
  | none => []

/-- All entries of one Dockerfile construction in field declaration
order, for the fields the claims exercise: the missing required
fields of the root, then the dev sub model, then the prod sub
model. -/
def allErrors (tree : PMap) : List ErrorEntry :=
  missingEntries tree ++ devEntries tree ++ prodEntries tree

/-- Construction outcome of a Dockerfile from a merged tree: either
the construction succeeds, or pydantic raises the one aggregated
ValidationError carrying every collected entry.  The outcome has no
second failure channel: a validator assert folds into the same
aggregated error as every other field failure. -/
inductive DockerfileBuild where
  | ok : DockerfileBuild
  | aggregatedError : List ErrorEntry → DockerfileBuild
deriving DecidableEq, Repr

/-- The aggregated construction of a Dockerfile over the modelled
fields. -/
def dockerfileBuild (tree : PMap) : DockerfileBuild :=
  match allErrors tree with
  | [] => DockerfileBuild.ok
  | es => DockerfileBuild.aggregatedError es

example : lookup [("a", PTree.num 1), ("b", PTree.null)] "b" = some PTree.null := rfl

example : from_file_dispatch "/tmp/config.ini" ".ini"
    = LoadOutcome.fatalExit 1 "Incorrectly formatted /tmp/config.ini (.ini)" := by decide

example :
    containsSubstr "Incorrectly formatted /tmp/config.ini (.ini)" "/tmp/config.ini" = true := by
  decide

example :
    containsSubstr "Incorrectly formatted /tmp/config.ini (.ini)" ".json" = false := by decide

example : requiredCheck [("package", PTree.str "demo")]
    = BuildOutcome.validationFailure ["dev", "prod"] := rfl

example :
    consistent_image none none none
      = TargetResult.ok ⟨none, none, some "python:3.9-alpine"⟩ := by decide

example :
    consistent_image none none (some "python:3.9-alpine")
      = TargetResult.ok ⟨some "python", some "3.9-alpine", some "python:3.9-alpine"⟩ := by
  decide

example :
    consistent_image (some "node") none (some "python:3.9-alpine")
      = TargetResult.imageConsistencyError := by decide

example : consistent_image (some "python") none none = TargetResult.validationError := by
  decide

example :
    deep_update [("a", PTree.num 1)] [("a", PTree.num 2), ("b", PTree.null)]
      = [("a", PTree.num 2), ("b", PTree.null)] := by
  simp [deep_update, updateEntry, lookup, setKey]

/-! Helper lemmas about the mapping operations and the merge engine. -/

theorem deep_update_nilR (base : PMap) : deep_update base [] = base := by
  rw [deep_update.eq_def]

theorem deep_update_cons (base : PMap) (k : String) (v : PTree) (rest : PMap) :
    deep_update base ((k, v) :: rest) = deep_update (updateEntry base k v) rest := by
  rw [deep_update.eq_def]

theorem lookup_setKey_self (m : PMap) (k : String) (v : PTree) :
    lookup (setKey m k v) k = some v := by
  induction m with
  | nil => simp [setKey, lookup]
  | cons hd tl ih =>
      obtain ⟨k', v'⟩ := hd
      by_cases h : k = k'
      · subst h
        simp [setKey, lookup]
      · simp [setKey, h, lookup, ih]

theorem lookup_setKey_ne (m : PMap) (k : String) (v : PTree) (k' : String)
    (h : k' ≠ k) : lookup (setKey m k v) k' = lookup m k' := by
  induction m with
  | nil => simp [setKey, lookup, h]
  | cons hd tl ih =>
      obtain ⟨k₀, v₀⟩ := hd
      by_cases h0 : k = k₀
      · subst h0
        simp [setKey, lookup, h]
      · by_cases h1 : k' = k₀
        · subst h1
          simp [setKey, h0, lookup]
        · simp [setKey, h0, lookup, h1, ih]

theorem updateEntry_eq (base : PMap) (k : String) (v : PTree) :
    updateEntry base k v = setKey base k (mergeVal (lookup base k) v) := by
  cases h : lookup base k with
  | none => cases v <;> simp [updateEntry, mergeVal, h]
  | some bv => cases bv <;> cases v <;> simp [updateEntry, mergeVal, h]

theorem mergeVal_none (ov : PTree) : mergeVal none ov = ov := by
  cases ov <;> rfl

theorem mergeVal_of_not_map (bv : Option PTree) (ov : PTree) (h : ov.isMap = false) :
    mergeVal bv ov = ov := by
  cases bv with
  | none => exact mergeVal_none ov
  | some bv' => cases bv' <;> cases ov <;> simp_all [PTree.isMap, mergeVal]

theorem mergeVal_of_base_not_map (bv : PTree) (ov : PTree) (h : bv.isMap = false) :
    mergeVal (some bv) ov = ov := by
  cases bv <;> cases ov <;> simp_all [PTree.isMap, mergeVal]

theorem lookup_eq_none_of_not_mem (m : PMap) (k : String)
    (h : k ∉ m.map Prod.fst) : lookup m k = none := by
  induction m with
  | nil => rfl
  | cons hd tl ih =>
      obtain ⟨k', v'⟩ := hd
      simp only [List.map_cons, List.mem_cons] at h
      push_neg at h
      simp [lookup, h.1, ih h.2]

theorem lookup_deep_update_of_none (base o : PMap) (k : String)
    (h : lookup o k = none) : lookup (deep_update base o) k = lookup base k := by
  induction o generalizing base with
  | nil => simp [deep_update_nilR]
  | cons hd tl ih =>
      obtain ⟨k', v'⟩ := hd
      have hk : ¬ (k = k') := by
        intro he
        simp [lookup, he] at h
      have htl : lookup tl k = none := by
        simpa [lookup, hk] using h
      rw [deep_update_cons, ih _ htl, updateEntry_eq, lookup_setKey_ne _ _ _ _ hk]

theorem lookup_deep_update_of_some (base o : PMap) (k : String) (ov : PTree)
    (hnd : (o.map Prod.fst).Nodup) (h : lookup o k = some ov) :
    lookup (deep_update base o) k = some (mergeVal (lookup base k) ov) := by
  induction o generalizing base with
  | nil => simp [lookup] at h
  | cons hd tl ih =>
      obtain ⟨k', v'⟩ := hd
      simp only [List.map_cons, List.nodup_cons] at hnd
      by_cases hk : k = k'
      · subst hk
        have hv : v' = ov := by simpa [lookup] using h
        subst hv
        have htl : lookup tl k = none :=
          lookup_eq_none_of_not_mem tl k hnd.1
        rw [deep_update_cons, lookup_deep_update_of_none _ _ _ htl, updateEntry_eq,
          lookup_setKey_self]
      · have htl : lookup tl k = some ov := by simpa [lookup, hk] using h
        rw [deep_update_cons, ih _ hnd.2 htl, updateEntry_eq,
          lookup_setKey_ne _ _ _ _ hk]

theorem mem_keys_setKey (m : PMap) (k : String) (v : PTree) (a : String) :
    a ∈ (setKey m k v).map Prod.fst ↔ a ∈ m.map Prod.fst ∨ a = k := by
  induction m with
  | nil => simp [setKey]
  | cons hd tl ih =>
      obtain ⟨k', v'⟩ := hd
      by_cases h : k = k'
      · subst h
        simp [setKey]
        tauto
      · simp [setKey, h, ih]
        tauto

theorem nodup_keys_setKey (m : PMap) (k : String) (v : PTree)
    (h : (m.map Prod.fst).Nodup) : ((setKey m k v).map Prod.fst).Nodup := by
  induction m with
  | nil => simp [setKey]
  | cons hd tl ih =>
      obtain ⟨k', v'⟩ := hd
      simp only [List.map_cons, List.nodup_cons] at h
      by_cases hk : k = k'
      · have hs : setKey ((k', v') :: tl) k v = (k', v) :: tl := by
          simp [setKey, hk]
        rw [hs]
        simp only [List.map_cons, List.nodup_cons]
        exact h
      · simp only [setKey, hk, if_false, List.map_cons, List.nodup_cons,
          mem_keys_setKey]
        refine ⟨?_, ih h.2⟩
        rintro (hm | he)
        · exact h.1 hm
        · exact hk he.symm

theorem nodup_keys_deep_update (base o : PMap)
    (h : (base.map Prod.fst).Nodup) :
    ((deep_update base o).map Prod.fst).Nodup := by
  induction o generalizing base with
  | nil => simpa [deep_update_nilR]
  | cons hd tl ih =>
      obtain ⟨k, v⟩ := hd
      rw [deep_update_cons]
      refine ih _ ?_
      rw [updateEntry_eq]
      exact nodup_keys_setKey _ _ _ h

theorem lookup_append_of_none (a b : PMap) (k : String)
    (h : lookup a k = none) : lookup (a ++ b) k = lookup b k := by
  induction a with
  | nil => rfl
  | cons hd tl ih =>
      obtain ⟨k', v'⟩ := hd
      have hk : ¬ (k = k') := by
        intro he
        simp [lookup, he] at h
      have htl : lookup tl k = none := by simpa [lookup, hk] using h
      simp [lookup, hk, ih htl]

theorem setKey_of_lookup_none (m : PMap) (k : String) (v : PTree)
    (h : lookup m k = none) : setKey m k v = m ++ [(k, v)] := by
  induction m with
  | nil => rfl
  | cons hd tl ih =>
      obtain ⟨k', v'⟩ := hd
      have hk : ¬ (k = k') := by
        intro he
        simp [lookup, he] at h
      have htl : lookup tl k = none := by simpa [lookup, hk] using h
      simp [setKey, hk, ih htl]

theorem deep_update_of_disjoint (base o : PMap)
    (hd : ∀ k ∈ o.map Prod.fst, lookup base k = none)
    (hnd : (o.map Prod.fst).Nodup) : deep_update base o = base ++ o := by
  induction o generalizing base with
  | nil => simp [deep_update_nilR]
  | cons hd' tl ih =>
      obtain ⟨k, v⟩ := hd'
      simp only [List.map_cons, List.nodup_cons] at hnd
      have hbk : lookup base k = none := hd k (by simp)
      rw [deep_update_cons, updateEntry_eq, hbk, mergeVal_none,
        setKey_of_lookup_none _ _ _ hbk]
      have hstep : ∀ k' ∈ tl.map Prod.fst, lookup (base ++ [(k, v)]) k' = none := by
        intro k' hk'
        have hne : ¬ (k' = k) := fun he => hnd.1 (he ▸ hk')
        have h1 : lookup base k' = none := hd k' (by simp [hk'])
        rw [lookup_append_of_none _ _ _ h1]
        simp [lookup, hne]
      rw [ih _ hstep hnd.2, List.append_assoc]
      rfl

/-- Characterisation of consistent_image on a truthy image value whose
split at the colon yields exactly the two pieces a and b: the guard
branches for a falsy image cannot fire, and the validator reduces to
the assert and write back cascade of the source. -/
theorem consistent_image_parsed (r t : Option String) (s a b : String)
    (hsplit : splitOnColon s = [a, b]) (hst : truthy (some s) = true) :
    consistent_image r t (some s) =
      if truthy r then
        if r = some a then
          if truthy t then
            if t = some b then TargetResult.ok ⟨r, t, some s⟩
            else TargetResult.imageConsistencyError
          else TargetResult.ok ⟨r, some b, some s⟩
        else TargetResult.imageConsistencyError
      else
        if truthy t then
          if t = some b then TargetResult.ok ⟨some a, t, some s⟩
          else TargetResult.imageConsistencyError
        else TargetResult.ok ⟨some a, some b, some s⟩ := by
  have h1 : ¬ (truthy (some s) = false ∧ truthy r = true ∧ truthy t = true) := by
    simp [hst]
  have h2 : ¬ (truthy (some s) = false ∧ truthy r = false ∧ truthy t = false) := by
    simp [hst]
  rw [consistent_image, if_neg h1, if_neg h2]
  rw [hsplit]

/-- Every nonempty string is truthy. -/
theorem truthy_some_of_ne (s : String) (h : s ≠ "") : truthy (some s) = true := by
  simp [truthy, h]

/-- A string whose colon split has two pieces is nonempty. -/
theorem ne_empty_of_split_pair (s a b : String) (h : splitOnColon s = [a, b]) :
    s ≠ "" := by
  intro he
  rw [he, show splitOnColon "" = [""] from by decide] at h
  simp at h

/-- An independently specified sibling disagreeing with the
corresponding parsed part makes consistent_image end in the assert
outcome. -/
theorem consistent_image_mismatch_eq (r t : Option String) (s a b : String)
    (hsplit : splitOnColon s = [a, b])
    (hmis : (truthy r = true ∧ r ≠ some a) ∨ (truthy t = true ∧ t ≠ some b)) :
    consistent_image r t (some s) = TargetResult.imageConsistencyError := by
  have hst : truthy (some s) = true :=
    truthy_some_of_ne s (ne_empty_of_split_pair s a b hsplit)
  rw [consistent_image_parsed r t s a b hsplit hst]
  rcases hmis with ⟨hr, hne⟩ | ⟨ht, hne⟩
  · simp [hr, hne]
  · by_cases hr0 : truthy r
    · by_cases hra : r = some a
      · simp [hr0, hra, ht, hne]
      · simp [hr0, hra]
    · simp [hr0, ht, hne]

/-! Claim theorems. -/

/-- C1: for a Target validated with the image value absent, the
consistent_image validator derives the image as the repository, a
colon and the tag when both siblings are present (in the sense of the
sources truthiness test, a non empty string), and returns the fixed
fallback string when neither sibling is present. -/
theorem image_absent_derivation_and_fallback (r t : String) (hr : r ≠ "")
    (ht : t ≠ "") :
    consistent_image (some r) (some t) none
        = TargetResult.ok ⟨some r, some t, some (r ++ ":" ++ t)⟩
  ∧ consistent_image none none none
        = TargetResult.ok ⟨none, none, some "python:3.9-alpine"⟩ := by
  constructor
  · rw [consistent_image, if_pos]
    · simp
    · simp [truthy, hr, ht]
  · decide

/-- C1 witness at the concrete repository python and tag 3.9-alpine. -/
theorem image_absent_derivation_and_fallback_witness :
    consistent_image (some "python") (some "3.9-alpine") none
        = TargetResult.ok
            ⟨some "python", some "3.9-alpine", some ("python" ++ ":" ++ "3.9-alpine")⟩
  ∧ consistent_image none none none
        = TargetResult.ok ⟨none, none, some "python:3.9-alpine"⟩ :=
  image_absent_derivation_and_fallback "python" "3.9-alpine" (by decide) (by decide)

/-- C2: for a Target validated with an image value that parses as
repo colon tag, a sibling field that was not independently specified
is back filled in the constructed entity from the part parsed out of
the image; with neither sibling specified the validator accepts and
back fills both. -/
theorem image_backfill_from_parsed (r t : Option String) (s a b : String)
    (hsplit : splitOnColon s = [a, b]) :
    (truthy r = false → ∀ out, consistent_image r t (some s) = TargetResult.ok out →
        out.repository = some a)
  ∧ (truthy t = false → ∀ out, consistent_image r t (some s) = TargetResult.ok out →
        out.tag = some b)
  ∧ consistent_image none none (some s) = TargetResult.ok ⟨some a, some b, some s⟩ := by
  have hst : truthy (some s) = true :=
    truthy_some_of_ne s (ne_empty_of_split_pair s a b hsplit)
  have hch := consistent_image_parsed r t s a b hsplit hst
  refine ⟨?_, ?_, ?_⟩
  · intro hrf out hout
    rw [hch, hrf] at hout
    by_cases ht0 : truthy t
    · by_cases htb : t = some b
      · simp [ht0, htb] at hout
        simp [← hout]
      · simp [ht0, htb] at hout
    · simp [ht0] at hout
      simp [← hout]
  · intro htf out hout
    rw [hch, htf] at hout
    by_cases hr0 : truthy r
    · by_cases hra : r = some a
      · simp [hr0, hra] at hout
        simp [← hout]
      · simp [hr0, hra] at hout
    · simp [hr0] at hout
      simp [← hout]
  · rw [consistent_image_parsed none none s a b hsplit hst]
    simp [truthy]

/-- C2 witness at the concrete image python:3.9-alpine with neither
sibling specified. -/
theorem image_backfill_from_parsed_witness :
    consistent_image none none (some "python:3.9-alpine")
      = TargetResult.ok ⟨some "python", some "3.9-alpine", some "python:3.9-alpine"⟩ :=
  (image_backfill_from_parsed none none "python:3.9-alpine" "python" "3.9-alpine"
    (by decide)).2.2

/-- C3 counterexample: at the concrete merged tree whose dev sub
model carries the image python:3.9-alpine against the disagreeing
repository node, and whose package is missing, construction raises
the one aggregated ValidationError whose entry list holds the dev
image assertion entry together with the package missing entry: the
image consistency failure is folded into the aggregated validation
error among the other field errors, refuting the reported separately
part of the claim. -/
theorem image_mismatch_folded_counterexample :
    dockerfileBuild
        [("dev", PTree.map [("repository", PTree.str "node"),
            ("image", PTree.str "python:3.9-alpine")]),
         ("prod", PTree.map [])]
      = DockerfileBuild.aggregatedError
          [⟨["package"], "value_error.missing"⟩,
           ⟨["dev", "image"], "assertion_error"⟩] := by decide

/-- C3 (amended): for a Target validated with an image value parsing
as repo colon tag and an independently specified sibling disagreeing
with the corresponding parsed part, the assert fires and the target
contributes exactly one assertion error entry at its image field; a
Dockerfile construction whose dev sub model carries such a target
therefore fails with the single aggregated ValidationError, and the
dev image assertion entry sits inside its entry list, folded in among
whatever other field errors the tree produces, not reported
separately. -/
theorem image_mismatch_folded (m : PMap) (s a b : String)
    (hsplit : splitOnColon s = [a, b])
    (himg : strField m "image" = some s)
    (hmis : (truthy (strField m "repository") = true
              ∧ strField m "repository" ≠ some a)
          ∨ (truthy (strField m "tag") = true ∧ strField m "tag" ≠ some b)) :
    targetErrors m = [⟨["image"], "assertion_error"⟩]
  ∧ ∀ tree, subMap tree "dev" = some m →
      ∃ es, dockerfileBuild tree = DockerfileBuild.aggregatedError es
        ∧ (⟨["dev", "image"], "assertion_error"⟩ : ErrorEntry) ∈ es := by
  have hte : targetErrors m = [⟨["image"], "assertion_error"⟩] := by
    unfold targetErrors
    rw [himg, consistent_image_mismatch_eq _ _ s a b hsplit hmis]
  refine ⟨hte, ?_⟩
  intro tree hdev
  have hdevE : devEntries tree = [⟨["dev", "image"], "assertion_error"⟩] := by
    unfold devEntries
    rw [hdev]
    show nestErrors "dev" (targetErrors m) = _
    rw [hte]
    rfl
  have hmem : (⟨["dev", "image"], "assertion_error"⟩ : ErrorEntry)
      ∈ allErrors tree := by
    simp [allErrors, hdevE]
  cases h : allErrors tree with
  | nil =>
      rw [h] at hmem
      simp at hmem
  | cons x xs =>
      refine ⟨x :: xs, ?_, h ▸ hmem⟩
      unfold dockerfileBuild
      rw [h]

/-- C3 witness at the concrete dev sub model carrying the image
python:3.9-alpine against the mismatching repository node. -/
theorem image_mismatch_folded_witness :
    targetErrors [("repository", PTree.str "node"),
        ("image", PTree.str "python:3.9-alpine")]
        = [⟨["image"], "assertion_error"⟩]
  ∧ ∃ es, dockerfileBuild
        [("dev", PTree.map [("repository", PTree.str "node"),
            ("image", PTree.str "python:3.9-alpine")]),
         ("package", PTree.str "demo"), ("prod", PTree.map [])]
        = DockerfileBuild.aggregatedError es
      ∧ (⟨["dev", "image"], "assertion_error"⟩ : ErrorEntry) ∈ es :=
  ⟨(image_mismatch_folded
      [("repository", PTree.str "node"), ("image", PTree.str "python:3.9-alpine")]
      "python:3.9-alpine" "python" "3.9-alpine" (by decide) rfl
      (Or.inl ⟨by decide, by decide⟩)).1,
   (image_mismatch_folded
      [("repository", PTree.str "node"), ("image", PTree.str "python:3.9-alpine")]
      "python:3.9-alpine" "python" "3.9-alpine" (by decide) rfl
      (Or.inl ⟨by decide, by decide⟩)).2 _ rfl⟩

/-- C10: for a Target validated with the image value absent and
exactly one sibling present, neither guard branch of consistent_image
fires, the validator falls through to splitting the absent image
value, and validation fails. -/
theorem image_absent_one_sibling (r t : Option String)
    (h : truthy r ≠ truthy t) :
    consistent_image r t none = TargetResult.validationError := by
  cases hr : truthy r <;> cases ht : truthy t <;> simp_all [consistent_image, truthy]

/-- C10 witness with only the repository present. -/
theorem image_absent_one_sibling_witness :
    consistent_image (some "python") none none = TargetResult.validationError :=
  image_absent_one_sibling (some "python") none (by decide)

/-- C4: merge precedence and shape rule of deep_update.  At a key
present in both sides the override value wins; two map shaped values
are merged recursively; any non map shape is fully replaced by the
override value; a key present in only one side keeps that sides
value. -/
theorem deep_update_precedence_and_shape (base override : PMap) (k : String)
    (hnd : (override.map Prod.fst).Nodup) :
    (∀ bm om, lookup base k = some (PTree.map bm) →
        lookup override k = some (PTree.map om) →
        lookup (deep_update base override) k
          = some (PTree.map (deep_update bm om)))
  ∧ (∀ ov, lookup override k = some ov → ov.isMap = false →
        lookup (deep_update base override) k = some ov)
  ∧ (∀ bv ov, lookup base k = some bv → bv.isMap = false →
        lookup override k = some ov →
        lookup (deep_update base override) k = some ov)
  ∧ (lookup base k = none → ∀ ov, lookup override k = some ov →
        lookup (deep_update base override) k = some ov)
  ∧ (lookup override k = none →
        lookup (deep_update base override) k = lookup base k) := by
  refine ⟨?_, ?_, ?_, ?_, ?_⟩
  · intro bm om hb ho
    rw [lookup_deep_update_of_some base override k _ hnd ho, hb]
    rfl
  · intro ov ho hm
    rw [lookup_deep_update_of_some base override k ov hnd ho,
      mergeVal_of_not_map _ _ hm]
  · intro bv ov hb hm ho
    rw [lookup_deep_update_of_some base override k ov hnd ho, hb,
      mergeVal_of_base_not_map _ _ hm]
  · intro hb ov ho
    rw [lookup_deep_update_of_some base override k ov hnd ho, hb, mergeVal_none]
  · exact lookup_deep_update_of_none base override k

/-- C4 witness: a scalar conflict resolved for the override and a key
present only in the base kept as is. -/
theorem deep_update_precedence_and_shape_witness :
    lookup (deep_update [("a", PTree.str "base"), ("c", PTree.str "keep")]
        [("a", PTree.str "override")]) "a" = some (PTree.str "override")
  ∧ lookup (deep_update [("a", PTree.str "base"), ("c", PTree.str "keep")]
        [("a", PTree.str "override")]) "c" = some (PTree.str "keep") := by
  constructor
  · exact (deep_update_precedence_and_shape
      [("a", PTree.str "base"), ("c", PTree.str "keep")]
      [("a", PTree.str "override")] "a" (by decide)).2.1 _ rfl rfl
  · rw [(deep_update_precedence_and_shape
      [("a", PTree.str "base"), ("c", PTree.str "keep")]
      [("a", PTree.str "override")] "c" (by decide)).2.2.2.2 rfl]
    rfl

/-- C5: layered resolution order of BaseSettings.__init__.  The
config file tree, the environment tree and the keyword tree are
merged pairwise in that order on top of the class defaults, so for a
scalar key the keyword tree beats the config file tree, the
environment tree beats the config file tree, and the default shows
through only when every source leaves the key unset. -/
theorem layered_resolution_order (defaults configTree envTree kwargs : PMap)
    (k : String)
    (hc : (configTree.map Prod.fst).Nodup)
    (he : (envTree.map Prod.fst).Nodup)
    (hk : (kwargs.map Prod.fst).Nodup) :
    (∀ cv v, lookup configTree k = some cv → lookup kwargs k = some v →
        v.isMap = false →
        lookup (resolveSettings defaults configTree envTree kwargs) k = some v)
  ∧ (∀ cv v, lookup configTree k = some cv → lookup envTree k = some v →
        v.isMap = false → lookup kwargs k = none →
        lookup (resolveSettings defaults configTree envTree kwargs) k = some v)
  ∧ (lookup configTree k = none → lookup envTree k = none →
        lookup kwargs k = none →
        lookup (resolveSettings defaults configTree envTree kwargs) k
          = lookup defaults k) := by
  have hinner : ((build_values envTree kwargs).map Prod.fst).Nodup :=
    nodup_keys_deep_update envTree kwargs he
  have hmid :
      ((deep_update configTree (build_values envTree kwargs)).map Prod.fst).Nodup :=
    nodup_keys_deep_update _ _ hc
  refine ⟨?_, ?_, ?_⟩
  · intro cv v hcv hkv hvm
    have h1 : lookup (build_values envTree kwargs) k = some v := by
      rw [build_values, lookup_deep_update_of_some envTree kwargs k v hk hkv,
        mergeVal_of_not_map _ _ hvm]
    have h2 :
        lookup (deep_update configTree (build_values envTree kwargs)) k = some v := by
      rw [lookup_deep_update_of_some _ _ k v hinner h1,
        mergeVal_of_not_map _ _ hvm]
    rw [resolveSettings, lookup_deep_update_of_some _ _ k v hmid h2,
      mergeVal_of_not_map _ _ hvm]
  · intro cv v hcv hev hvm hkn
    have h1 : lookup (build_values envTree kwargs) k = some v := by
      rw [build_values, lookup_deep_update_of_none envTree kwargs k hkn, hev]
    have h2 :
        lookup (deep_update configTree (build_values envTree kwargs)) k = some v := by
      rw [lookup_deep_update_of_some _ _ k v hinner h1,
        mergeVal_of_not_map _ _ hvm]
    rw [resolveSettings, lookup_deep_update_of_some _ _ k v hmid h2,
      mergeVal_of_not_map _ _ hvm]
  · intro hcn hen hkn
    have h1 : lookup (build_values envTree kwargs) k = none := by
      rw [build_values, lookup_deep_update_of_none envTree kwargs k hkn, hen]
    have h2 :
        lookup (deep_update configTree (build_values envTree kwargs)) k = none := by
      rw [lookup_deep_update_of_none _ _ k h1, hcn]
    rw [resolveSettings, lookup_deep_update_of_none _ _ k h2]

/-- C5 witness: a scalar key set by all four sources resolves to the
keyword value. -/
theorem layered_resolution_order_witness :
    lookup (resolveSettings [("package", PTree.str "default")]
        [("package", PTree.str "fromfile")] [("package", PTree.str "fromenv")]
        [("package", PTree.str "fromkw")]) "package"
      = some (PTree.str "fromkw") :=
  (layered_resolution_order [("package", PTree.str "default")]
    [("package", PTree.str "fromfile")] [("package", PTree.str "fromenv")]
    [("package", PTree.str "fromkw")] "package"
    (by decide) (by decide) (by decide)).1 (PTree.str "fromfile")
    (PTree.str "fromkw") rfl rfl rfl

/-- C6: merging a tree with an empty tree on either side yields the
tree unchanged. -/
theorem deep_update_empty_identity (t : PMap) (h : (t.map Prod.fst).Nodup) :
    deep_update t [] = t ∧ deep_update [] t = t := by
  constructor
  · exact deep_update_nilR t
  · have hd := deep_update_of_disjoint [] t (fun k _ => rfl) h
    simpa using hd

/-- C6 witness on a one entry tree. -/
theorem deep_update_empty_identity_witness :
    deep_update [("a", PTree.num 1)] [] = [("a", PTree.num 1)]
  ∧ deep_update [] [("a", PTree.num 1)] = [("a", PTree.num 1)] :=
  deep_update_empty_identity [("a", PTree.num 1)] (by decide)

/-- C7 counterexample: at the concrete path /tmp/config.ini the
dispatch fails fatally and the printed diagnostic carries the path,
but none of the four allowed extensions, refuting the reported with
the list of allowed extensions part of the claim. -/
theorem unsupported_suffix_counterexample :
    from_file_dispatch "/tmp/config.ini" ".ini"
        = LoadOutcome.fatalExit 1 "Incorrectly formatted /tmp/config.ini (.ini)"
  ∧ containsSubstr "Incorrectly formatted /tmp/config.ini (.ini)" "/tmp/config.ini"
        = true
  ∧ containsSubstr "Incorrectly formatted /tmp/config.ini (.ini)" ".json" = false
  ∧ containsSubstr "Incorrectly formatted /tmp/config.ini (.ini)" ".toml" = false
  ∧ containsSubstr "Incorrectly formatted /tmp/config.ini (.ini)" ".yml" = false
  ∧ containsSubstr "Incorrectly formatted /tmp/config.ini (.ini)" ".yaml" = false := by
  decide

/-- C7 (amended): for every config file suffix outside the four
recognised extensions, the dispatch raises KeyError, no parser and no
tree is produced, and from_file reports fatally (exit status one) with
a diagnostic naming the path and the unrecognised suffix; the allowed
extension list is not part of the diagnostic. -/
theorem unsupported_suffix_fatal_report (path suffix : String)
    (h : suffix ∉ allowedSuffixes) :
    from_file_dispatch path suffix
        = LoadOutcome.fatalExit 1
            ("Incorrectly formatted " ++ path ++ " (" ++ suffix ++ ")")
  ∧ ∀ fmt, from_file_dispatch path suffix ≠ LoadOutcome.decoded fmt := by
  simp only [allowedSuffixes, List.mem_cons, List.not_mem_nil, or_false,
    not_or] at h
  obtain ⟨h1, h2, h3, h4⟩ := h
  constructor
  · simp [from_file_dispatch, formatFor, h1, h2, h3, h4]
  · intro fmt
    simp [from_file_dispatch, formatFor, h1, h2, h3, h4]

/-- C7 witness at the concrete suffix .cfg. -/
theorem unsupported_suffix_fatal_report_witness :
    from_file_dispatch "/etc/dpt.cfg" ".cfg"
        = LoadOutcome.fatalExit 1
            ("Incorrectly formatted " ++ "/etc/dpt.cfg" ++ " (" ++ ".cfg" ++ ")")
  ∧ ∀ fmt, from_file_dispatch "/etc/dpt.cfg" ".cfg" ≠ LoadOutcome.decoded fmt :=
  unsupported_suffix_fatal_report "/etc/dpt.cfg" ".cfg" (by decide)

/-- C8 counterexample: a merged tree supplying only package does not
construct: dev and prod are required as well (both are declared with
an ellipsis default), refuting that package is the only required
field. -/
theorem required_fields_counterexample :
    requiredCheck [("package", PTree.str "demo")]
        = BuildOutcome.validationFailure ["dev", "prod"]
  ∧ (dockerfileFields.filter fun f => f.required).map FieldSpec.name
        = ["package", "dev", "prod"] :=
  ⟨rfl, rfl⟩

/-- C8 (amended): package, dev and prod are the required Dockerfile
fields with no default.  A merged tree lacking package fails the
required field check with package among the reported missing fields;
a tree supplying package, dev and prod passes the required field
check. -/
theorem required_fields_enforcement (tree : PMap) :
    (lookup tree "package" = none →
        "package" ∈ missingRequired tree
      ∧ requiredCheck tree ≠ BuildOutcome.built)
  ∧ ((lookup tree "package").isSome → (lookup tree "dev").isSome →
        (lookup tree "prod").isSome → requiredCheck tree = BuildOutcome.built) := by
  constructor
  · intro h
    have hm : "package" ∈ missingRequired tree := by
      simp [missingRequired, dockerfileFields, h]
    refine ⟨hm, ?_⟩
    intro hb
    by_cases hmr : missingRequired tree = []
    · rw [hmr] at hm
      simp at hm
    · simp [requiredCheck, hmr] at hb
  · intro hp hd hpr
    obtain ⟨vp, hvp⟩ := Option.isSome_iff_exists.mp hp
    obtain ⟨vd, hvd⟩ := Option.isSome_iff_exists.mp hd
    obtain ⟨vr, hvr⟩ := Option.isSome_iff_exists.mp hpr
    simp [requiredCheck, missingRequired, dockerfileFields, hvp, hvd, hvr]

/-- C8 witness: a tree lacking package fails naming package, a tree
supplying the three required fields passes the required field
check. -/
theorem required_fields_enforcement_witness :
    ("package" ∈ missingRequired [("dev", PTree.map []), ("prod", PTree.map [])]
      ∧ requiredCheck [("dev", PTree.map []), ("prod", PTree.map [])]
          ≠ BuildOutcome.built)
  ∧ requiredCheck
        [("package", PTree.str "demo"), ("dev", PTree.map []), ("prod", PTree.map [])]
      = BuildOutcome.built :=
  ⟨(required_fields_enforcement
      [("dev", PTree.map []), ("prod", PTree.map [])]).1 rfl,
   (required_fields_enforcement
      [("package", PTree.str "demo"), ("dev", PTree.map []), ("prod", PTree.map [])]).2
      rfl rfl rfl⟩

/-- C9: the readme_ext enumeration declares the two member names RST
and MD, its declared default is RST, and both members carry the same
literal value .rst, so a Dockerfile constructed with MD carries the
same readme extension value as one constructed with the default
RST. -/
theorem readme_ext_degenerate :
    ReadmeExt.value ReadmeExt.RST = ".rst"
  ∧ ReadmeExt.value ReadmeExt.MD = ".rst"
  ∧ readmeExtDefault = ReadmeExt.RST
  ∧ ReadmeExt.value ReadmeExt.MD = ReadmeExt.value readmeExtDefault :=
  ⟨rfl, rfl, rfl, rfl⟩

end Dpt
